import Mathlib

/-!
A shallow embedding of the ORFclust annotation data model and its
grouping/clustering operations, translated from
`src/orfclust/classes/transcript.py`, `src/orfclust/classes/txgroup.py`
and `src/orfclust/main.py`.

Coordinates are half-open integer ranges `[start, end)`.  Python's
`float("inf")` sentinel for an unset start is modelled with `Option Int`
where it can actually occur (bundle aggregates); assembled transcripts
always carry concrete bounds.  Interval trees are modelled as lists of
intervals, sorted on read (`sorted(tree)` in the source).  Fatal errors
(assertions, KeyError, AttributeError) are modelled with `Except String`.
-/

namespace ORFclust

/-- Feature kinds (`Types` in the repository's `utils.common` helper module,
referenced throughout the sources). -/
inductive OType where
  | Transcript
  | Exon
  | CDS
  deriving DecidableEq

/-- Attribute lookup on an ordered attribute mapping (`dict.get(k, None)`). -/
def lookupAttr (attrs : List (String × String)) (k : String) : Option String :=
  (attrs.find? (fun p => p.1 == k)).map Prod.snd

/-- Modelled from the spec: `rename_attributes` from the repository's
`utils/common` module, which is not under `src/`.  Per the spec (§4.1, §4.2)
it normalizes dialect linkage keys to the canonical ones (`ID`→`transcript_id`,
`Parent`→`gene_id` for transcript lines; `Parent`→`transcript_id` for exon/CDS
lines).  Each key is renamed through the given mapping; other keys are kept. -/
def renameAttrs (attrs : List (String × String)) (m : List (String × String)) :
    List (String × String) :=
  attrs.map (fun p =>
    match lookupAttr m p.1 with
    | some k2 => (k2, p.2)
    | none => p)

/-- The `Object` base class of `transcript.py`: a typed, attributed record with
a half-open coordinate range.  Assembled `Transcript` entities reuse the same
shape, carrying their exon/CDS interval lists and expression vector. -/
structure Obj where
  otype : OType
  seqid : String
  strand : String
  source : String
  start : Int
  end_ : Int
  attrs : List (String × String)
  exons : List (Int × Int)
  cds : List (Int × Int)
  expression : List ℚ
  deriving DecidableEq

/-- `Object.overlaps` (transcript.py lines 40-50):
`self.get_start() <= obj.get_end() and self.get_end() >= obj.get_start()`. -/
def Obj.overlaps (a b : Obj) : Bool :=
  decide (a.start ≤ b.end_) && decide (a.end_ ≥ b.start)

/-- `Object.get_tid` as realized on entity classes: the transcript id is the
normalized `transcript_id` attribute. -/
def Obj.getTid (o : Obj) : Option String :=
  lookupAttr o.attrs "transcript_id"

/-- An object with only a coordinate range set, every other field neutral
(used to state range-only properties). -/
def mkRangeObj (s e : Int) : Obj :=
  { otype := OType.Transcript, seqid := "", strand := "", source := "ORFclust",
    start := s, end_ := e, attrs := [], exons := [], cds := [], expression := [] }

/-- An assembled `Transcript` entity (class `Transcript` of transcript.py). -/
structure TranscriptS where
  seqid : String
  strand : String
  source : String
  start : Int
  end_ : Int
  tid : String
  gid : Option String
  attrs : List (String × String)
  exons : List (Int × Int)
  cds : List (Int × Int)
  expression : List ℚ
  deriving DecidableEq

/-- A default transcript value (stands for Python's out-of-range access
default; never reached on the paths proved about). -/
def defaultTx : TranscriptS :=
  { seqid := "", strand := "", source := "ORFclust", start := 0, end_ := 0,
    tid := "", gid := none, attrs := [], exons := [], cds := [], expression := [] }

/-- Insertion of one interval into a list sorted by `(start, end)`. -/
def insertPair (x : Int × Int) : List (Int × Int) → List (Int × Int)
  | [] => [x]
  | y :: ys =>
    if x.1 < y.1 ∨ (x.1 = y.1 ∧ x.2 ≤ y.2) then x :: y :: ys
    else y :: insertPair x ys

/-- `sorted(tree)` on an interval tree: intervals ordered by `(begin, end)`. -/
def sortPairs (l : List (Int × Int)) : List (Int × Int) :=
  l.foldr insertPair []

/-- `tree.begin()` of intervaltree: the minimum interval start (0 on empty). -/
def tbegin : List (Int × Int) → Int
  | [] => 0
  | x :: xs => xs.foldl (fun a e => min a e.1) x.1

/-- `tree.end()` of intervaltree: the maximum interval end (0 on empty). -/
def tend : List (Int × Int) → Int
  | [] => 0
  | x :: xs => xs.foldl (fun a e => max a e.2) x.2

/-- `tree[p]` membership test of intervaltree: some interval contains the
point `p` (`begin <= p < end`). -/
def containsPoint (l : List (Int × Int)) (p : Int) : Bool :=
  l.any (fun e => decide (e.1 ≤ p) && decide (p < e.2))

/-- `Object.add_attribute(k, v)` with the default flags
(`replace=False, append=False`): `dict.setdefault`, first value wins. -/
def addAttribute (attrs : List (String × String)) (k v : String) :
    List (String × String) :=
  if (lookupAttr attrs k).isSome then attrs else attrs ++ [(k, v)]

/-- `Transcript.from_transcript` (transcript.py lines 349-370): normalize the
attributes, then require both `transcript_id` and `gene_id`. -/
def fromTranscript (o : Obj) : Except String TranscriptS :=
  if o.otype ≠ OType.Transcript then
    .error "wrong object type passed to Transcript constructor"
  else
    match lookupAttr (renameAttrs o.attrs [("ID", "transcript_id"), ("Parent", "gene_id")])
        "transcript_id" with
    | none => .error "transcript_id not found in attributes"
    | some tid =>
      match lookupAttr (renameAttrs o.attrs [("ID", "transcript_id"), ("Parent", "gene_id")])
          "gene_id" with
      | none => .error "gene_id not found in attributes"
      | some _ =>
        .ok { seqid := o.seqid, strand := o.strand, source := o.source,
              start := o.start, end_ := o.end_, tid := tid,
              gid := lookupAttr (renameAttrs o.attrs
                       [("ID", "transcript_id"), ("Parent", "gene_id")]) "gene_id",
              attrs := renameAttrs o.attrs [("ID", "transcript_id"), ("Parent", "gene_id")],
              exons := [], cds := [], expression := [] }

/-- `Transcript.from_exon` (transcript.py lines 372-393): normalize the
attributes, require `transcript_id`; `gene_id` is optional here. -/
def fromExon (o : Obj) : Except String TranscriptS :=
  match lookupAttr (renameAttrs o.attrs [("Parent", "transcript_id")]) "transcript_id" with
  | none => .error "transcript_id not found in attributes"
  | some tid =>
    .ok { seqid := o.seqid, strand := o.strand, source := o.source,
          start := o.start, end_ := o.end_, tid := tid,
          gid := lookupAttr (renameAttrs o.attrs [("Parent", "transcript_id")]) "gene_id",
          attrs := renameAttrs o.attrs [("Parent", "transcript_id")],
          exons := [], cds := [], expression := [] }

/-- The `Transcript(obj)` constructor (transcript.py lines 331-347):
dispatches on the object kind. -/
def mkTranscript (o : Obj) : Except String TranscriptS :=
  match o.otype with
  | OType.Transcript => fromTranscript o
  | OType.Exon => fromExon o
  | OType.CDS => fromExon o

/-- `Transcript.add` (transcript.py lines 395-423): reject on seqid/strand or
`transcript_id` mismatch, otherwise merge the record by kind. -/
def TranscriptS.add (t : TranscriptS) (o : Obj) : Bool × TranscriptS :=
  if t.strand ≠ o.strand ∨ t.seqid ≠ o.seqid then (false, t)
  else if some t.tid ≠ lookupAttr o.attrs "transcript_id" then (false, t)
  else
    match o.otype with
    | OType.Transcript =>
      (true, { t with start := min t.start o.start, end_ := max t.end_ o.end_,
                      attrs := o.attrs.foldl (fun a p => addAttribute a p.1 p.2) t.attrs })
    | OType.Exon =>
      (true, { t with start := min t.start o.start, end_ := max t.end_ o.end_,
                      exons := t.exons ++ [(o.start, o.end_)] })
    | OType.CDS =>
      (true, { t with cds := t.cds ++ [(o.start, o.end_)] })

/-- `Transcript.nume`: number of exons. -/
def TranscriptS.nume (t : TranscriptS) : Nat := t.exons.length

/-- `Transcript.get_cds`: the sorted CDS interval list. -/
def TranscriptS.getCds (t : TranscriptS) : List (Int × Int) := sortPairs t.cds

/-- Bounds reconciliation step of `Transcript.finalize` (transcript.py lines
441-461): with exons present, the bounds are taken from (or, with
`extend=True`, widened to) the sorted exon chain (`sorted(exons)[0][0]` and
`sorted(exons)[-1][1]`); with no exons, a single exon spanning `[start, end)`
is synthesized. -/
def finalizeBounds (t : TranscriptS) (extendB : Bool) : TranscriptS :=
  match sortPairs t.exons with
  | [] => { t with exons := [(t.start, t.end_)] }
  | e :: es =>
    if extendB then
      { t with start := min t.start e.1, end_ := max t.end_ (es.getLastD e).2 }
    else
      { t with start := e.1, end_ := (es.getLastD e).2 }

/-- `Transcript.finalize` (transcript.py lines 425-465).  The leading assert
compares `self.tid` with `self.attrs["transcript_id"]` (a missing key raises
KeyError).  Then the bounds are reconciled per `finalizeBounds`, and the CDS
check tests only the points `cds.begin()` and `cds.end() - 1` against the
exon tree. -/
def TranscriptS.finalize (t : TranscriptS) (extendB : Bool) : Except String TranscriptS :=
  match lookupAttr t.attrs "transcript_id" with
  | none => .error "KeyError: transcript_id"
  | some v =>
    if v ≠ t.tid then .error "transcript_id missing - can not assign"
    else
      if (finalizeBounds t extendB).cds.isEmpty then .ok (finalizeBounds t extendB)
      else if containsPoint (finalizeBounds t extendB).exons (tbegin (finalizeBounds t extendB).cds) &&
              containsPoint (finalizeBounds t extendB).exons (tend (finalizeBounds t extendB).cds - 1) then
        .ok (finalizeBounds t extendB)
      else
        .error ("invalid CDS detected in transcript when finalizing: " ++ (finalizeBounds t extendB).tid)

/-- One step of `IntervalTree.merge_overlaps` over a start-sorted list: the
incoming interval is merged into the last accumulated interval when it
strictly overlaps it (touching intervals stay separate), else appended. -/
def mergeStep (acc : List (Int × Int)) (iv : Int × Int) : List (Int × Int) :=
  match acc with
  | [] => [iv]
  | _ =>
    let l := acc.getLastD iv
    if iv.1 < l.2 then acc.dropLast ++ [(l.1, max l.2 iv.2)] else acc ++ [iv]

/-- `IntervalTree.merge_overlaps()` with its default strict mode: coalesce
strictly overlapping intervals of the tree. -/
def mergeOverlaps (l : List (Int × Int)) : List (Int × Int) :=
  (sortPairs l).foldl mergeStep []

/-- Replace the element at one position of the member list
(`self.objects[idx].add(obj)` mutates in place). -/
def modifyAt (f : TranscriptS → TranscriptS) : Nat → List TranscriptS → List TranscriptS
  | _, [] => []
  | 0, t :: ts => f t :: ts
  | n + 1, t :: ts => t :: modifyAt f n ts

/-- `TXGroup.add_object` (txgroup.py lines 19-35) for a leaf record or
transcript entity: look the owning transcript up by id (`tid_map.setdefault`),
create it if absent, and delegate to `Transcript.add`; returns the position. -/
def txgroupAddObject (objects : List TranscriptS) (o : Obj) :
    Except String (Nat × List TranscriptS) :=
  match objects.findIdx? (fun t => some t.tid == o.getTid) with
  | some idx => .ok (idx, modifyAt (fun t => (t.add o).2) idx objects)
  | none =>
    match mkTranscript o with
    | .error e => .error e
    | .ok newT => .ok (objects.length, objects ++ [(newT.add o).2])

/-- The `Bundle` class (txgroup.py lines 147-179): a transcript container with
the `Object` coordinate traits and a merged exon-interval summary. -/
structure BundleS where
  seqid : Option String
  strand : Option String
  objects : List TranscriptS
  start : Option Int
  end_ : Int
  intervals : List (Int × Int)
  deriving DecidableEq

/-- `Bundle()`: empty container, unset seqid/strand, `start = inf`, `end = 0`. -/
def emptyBundle : BundleS :=
  { seqid := none, strand := none, objects := [], start := none, end_ := 0,
    intervals := [] }

/-- `Bundle.add_object` (txgroup.py lines 154-174): fix seqid/strand from the
first member, reject mismatches, delegate to `TXGroup.add_object`, then fold
the inserted member's exon list into the merged-interval summary and widen the
aggregate bounds. -/
def bundleAddObject (b : BundleS) (o : Obj) : Except String (Bool × BundleS) :=
  if some (b.seqid.getD o.seqid) ≠ some o.seqid ∨
     some (b.strand.getD o.strand) ≠ some o.strand then
    .ok (false, { b with seqid := some (b.seqid.getD o.seqid),
                         strand := some (b.strand.getD o.strand) })
  else
    match txgroupAddObject b.objects o with
    | .error e => .error e
    | .ok (idx, objects2) =>
      .ok (true,
        { b with
          seqid := some (b.seqid.getD o.seqid),
          strand := some (b.strand.getD o.strand),
          objects := objects2,
          intervals := mergeOverlaps
            (b.intervals ++ sortPairs (objects2.getD idx defaultTx).exons),
          start := some (match b.start with
                         | none => o.start
                         | some s => min s o.start),
          end_ := max b.end_ o.end_ })

/-- A sequence of `Bundle.add_object` calls, keeping the state after each call
whether the member was accepted or rejected; an exception aborts. -/
def addAllBundle : BundleS → List Obj → Except String BundleS
  | b, [] => .ok b
  | b, o :: rest =>
    match bundleAddObject b o with
    | .error e => .error e
    | .ok (_, b2) => addAllBundle b2 rest

/-- `Bundle.overlaps(obj)`: `Object.overlaps` evaluated with the bundle's
aggregate bounds (`float("inf") <= x` is false, so an unset bundle never
overlaps). -/
def bundleOverlaps (b : BundleS) (o : Obj) : Bool :=
  match b.start with
  | none => false
  | some s => decide (s ≤ o.end_) && decide (b.end_ ≥ o.start)

/-- The call `bundle.add(obj)` issued by `Transcriptome.bundle_it`
(txgroup.py lines 137 and 141): class `Bundle` and its bases `TXGroup` and
`Object` define no method named `add` (only `add_object`, `add_attribute`,
`add_expression` and `add_line`), so the lookup raises `AttributeError`. -/
def bundleCallAdd (_ : BundleS) (_ : Obj) : Except String BundleS :=
  .error "AttributeError: Bundle object has no attribute add"

/-- Loop body of `Transcriptome.bundle_it` (txgroup.py lines 133-144):
absorb into the open bundle when it is empty or overlaps the incoming object,
otherwise emit it and open a fresh bundle; emit the final non-empty bundle. -/
def bundleItGo (b : BundleS) (acc : List BundleS) :
    List Obj → Except String (List BundleS)
  | [] => .ok (if b.objects.isEmpty then acc else acc ++ [b])
  | o :: rest =>
    if b.objects.isEmpty || bundleOverlaps b o then
      match bundleCallAdd b o with
      | .error e => .error e
      | .ok b2 => bundleItGo b2 acc rest
    else
      match bundleCallAdd emptyBundle o with
      | .error e => .error e
      | .ok b2 => bundleItGo b2 (acc ++ [b]) rest

/-- `Transcriptome.bundle_it` run to completion on a coordinate-sorted
object list. -/
def bundleIt (txs : List Obj) : Except String (List BundleS) :=
  bundleItGo emptyBundle [] txs

/-- Modelled from the spec: `Gene.group_by`, invoked by `orfclust`
(main.py line 55) but defined in repository code that is not under `src/`.
Per the spec (§4.5) it partitions the group's transcript list into clusters
keyed by an equivalence function over transcript structure; the default key is
the transcript's ordered CDS interval list.  Each distinct key yields one
cluster holding exactly the transcripts carrying that key. -/
def groupByKey (key : TranscriptS → List (Int × Int)) (txs : List TranscriptS) :
    List (List (Int × Int) × List TranscriptS) :=
  ((txs.map key).dedup).map (fun k => (k, txs.filter (fun t => decide (key t = k))))

/-- One step of the expression accumulation loop of `orfclust`
(main.py lines 83-87): the first non-empty vector seeds the accumulator,
later vectors are added pointwise with `zip`. -/
def cumulativeStep (acc v : List ℚ) : List ℚ :=
  if acc.isEmpty then v else acc.zipWith (· + ·) v

/-- The aggregated per-sample expression vector written for a cluster's
representative (main.py lines 82-87), over the member expression vectors. -/
def cumulativeExpressions (vs : List (List ℚ)) : List ℚ :=
  vs.foldl cumulativeStep []

/-- Stated from the spec's words, for comparison with `cumulativeExpressions`:
the element-wise sum of the member vectors over `n` samples. -/
def specElementwiseSum (n : Nat) (vs : List (List ℚ)) : List ℚ :=
  (List.range n).map (fun i => (vs.map (fun v => v.getD i 0)).sum)

/-! Concrete inputs used to evaluate the definitions. -/

/-- A finalizable transcript whose CDS chain has a middle interval lying in an
intron: exons `[0,10)` and `[20,30)`, CDS `[0,5)`, `[12,15)`, `[25,28)`. -/
def c2tx : TranscriptS :=
  { seqid := "chr1", strand := "+", source := "ORFclust", start := 0, end_ := 30,
    tid := "t1", gid := some "g1", attrs := [("transcript_id", "t1")],
    exons := [(0, 10), (20, 30)], cds := [(0, 5), (12, 15), (25, 28)],
    expression := [] }

/-- A transcript-kind record carrying a `transcript_id` but no `gene_id`. -/
def c7obj : Obj :=
  { otype := OType.Transcript, seqid := "chr1", strand := "+", source := "ORFclust",
    start := 100, end_ := 200, attrs := [("transcript_id", "t1")],
    exons := [], cds := [], expression := [] }

/-- An assembled transcript entity with one exon `[0,10)`, offered to a bundle. -/
def c4obj : Obj :=
  { otype := OType.Transcript, seqid := "chr1", strand := "+", source := "ORFclust",
    start := 0, end_ := 10,
    attrs := [("transcript_id", "t1"), ("gene_id", "g1")],
    exons := [(0, 10)], cds := [], expression := [] }

/-- The internal member copy the bundle builds for `c4obj`: its exon tree is
empty because the `Transcript(obj)` constructor and the `Transcript`-kind
branch of `Transcript.add` never copy exons. -/
def c4memberTx : TranscriptS :=
  { seqid := "chr1", strand := "+", source := "ORFclust", start := 0, end_ := 10,
    tid := "t1", gid := some "g1",
    attrs := [("transcript_id", "t1"), ("gene_id", "g1")],
    exons := [], cds := [], expression := [] }

/-- The bundle state after accepting `c4obj` from the empty bundle. -/
def c4bres : BundleS :=
  { seqid := some "chr1", strand := some "+", objects := [c4memberTx],
    start := some 0, end_ := 10, intervals := [] }

/-- A bundle whose identity is already fixed to `chr1` / `+`. -/
def c4bset : BundleS :=
  { seqid := some "chr1", strand := some "+", objects := [c4memberTx],
    start := some 0, end_ := 10, intervals := [] }

/-- A record on a different sequence than `c4bset`. -/
def c4mismatch : Obj :=
  { otype := OType.Transcript, seqid := "chr2", strand := "+", source := "ORFclust",
    start := 50, end_ := 60,
    attrs := [("transcript_id", "t2"), ("gene_id", "g2")],
    exons := [], cds := [], expression := [] }

/-- A transcript assembled from a transcript line only: no exon was added. -/
def c9tx : TranscriptS :=
  { seqid := "chr1", strand := "+", source := "ORFclust", start := 100, end_ := 200,
    tid := "t1", gid := some "g1", attrs := [("transcript_id", "t1")],
    exons := [], cds := [], expression := [] }

/-- The transcript produced by finalizing `c9tx`: one synthesized exon. -/
def c9res : TranscriptS :=
  { c9tx with exons := [(100, 200)] }

/-- An established transcript used to probe `Transcript.add` rejection. -/
def mmTx : TranscriptS :=
  { seqid := "chr1", strand := "+", source := "ORFclust", start := 100, end_ := 200,
    tid := "t1", gid := some "g1", attrs := [("transcript_id", "t1")],
    exons := [], cds := [], expression := [] }

/-- A record whose seqid disagrees with `mmTx`. -/
def mmObj : Obj :=
  { otype := OType.Exon, seqid := "chr2", strand := "+", source := "ORFclust",
    start := 100, end_ := 150, attrs := [("transcript_id", "t1")],
    exons := [], cds := [], expression := [] }

/-- Two transcripts sharing the CDS chain `[100,200)` and one with no CDS. -/
def w1tx : TranscriptS :=
  { seqid := "chr1", strand := "+", source := "ORFclust", start := 100, end_ := 200,
    tid := "tA", gid := some "g1", attrs := [("transcript_id", "tA")],
    exons := [(100, 200)], cds := [(100, 200)], expression := [] }

/-- Same CDS chain as `w1tx`, different id and exon chain. -/
def w2tx : TranscriptS :=
  { seqid := "chr1", strand := "+", source := "ORFclust", start := 50, end_ := 200,
    tid := "tB", gid := some "g1", attrs := [("transcript_id", "tB")],
    exons := [(50, 200)], cds := [(100, 200)], expression := [] }

/-- A transcript with an empty CDS list. -/
def w3tx : TranscriptS :=
  { seqid := "chr1", strand := "+", source := "ORFclust", start := 300, end_ := 400,
    tid := "tC", gid := some "g1", attrs := [("transcript_id", "tC")],
    exons := [(300, 400)], cds := [], expression := [] }

/-! Helper lemmas. -/

theorem containsPoint_iff (l : List (Int × Int)) (p : Int) :
    containsPoint l p = true ↔ ∃ e ∈ l, e.1 ≤ p ∧ p < e.2 := by
  simp [containsPoint]

theorem finalizeBounds_cds (t : TranscriptS) (b : Bool) :
    (finalizeBounds t b).cds = t.cds := by
  unfold finalizeBounds
  split
  · rfl
  · split <;> rfl

theorem finalizeBounds_tid (t : TranscriptS) (b : Bool) :
    (finalizeBounds t b).tid = t.tid := by
  unfold finalizeBounds
  split
  · rfl
  · split <;> rfl

theorem finalize_ok_eq (t t' : TranscriptS) (b : Bool)
    (h : t.finalize b = Except.ok t') :
    t' = finalizeBounds t b ∧
      (t.cds ≠ [] →
        containsPoint (finalizeBounds t b).exons (tbegin t.cds) = true ∧
        containsPoint (finalizeBounds t b).exons (tend t.cds - 1) = true) := by
  unfold TranscriptS.finalize at h
  split at h
  · exact absurd h (by simp)
  · split at h
    · exact absurd h (by simp)
    · split at h
      · rename_i hemp
        cases h
        refine ⟨rfl, fun hcds => ?_⟩
        rw [finalizeBounds_cds, List.isEmpty_iff] at hemp
        exact absurd hemp hcds
      · split at h
        · rename_i hcp
          cases h
          refine ⟨rfl, fun _ => ?_⟩
          rw [finalizeBounds_cds, Bool.and_eq_true] at hcp
          exact hcp
        · exact absurd h (by simp)

theorem finalize_error_msgs (t : TranscriptS) (b : Bool) (m : String)
    (h : t.finalize b = Except.error m) :
    m = "KeyError: transcript_id" ∨ m = "transcript_id missing - can not assign" ∨
      m = "invalid CDS detected in transcript when finalizing: " ++ t.tid := by
  unfold TranscriptS.finalize at h
  split at h
  · cases h
    exact Or.inl rfl
  · split at h
    · cases h
      exact Or.inr (Or.inl rfl)
    · split at h
      · exact absurd h (by simp)
      · split at h
        · exact absurd h (by simp)
        · cases h
          exact Or.inr (Or.inr (by rw [finalizeBounds_tid]))

/-! Claim theorems. -/

/-- C6: `Object.overlaps` returns true exactly when
`a.start <= b.end and a.end >= b.start`; in particular two touching half-open
ranges `[x, y)` and `[y, z)` are reported as overlapping. -/
theorem overlaps_iff_inclusive_comparison :
    (∀ a b : Obj, a.overlaps b = true ↔ (a.start ≤ b.end_ ∧ a.end_ ≥ b.start)) ∧
    (∀ x y z : Int, x ≤ y → y ≤ z →
      (mkRangeObj x y).overlaps (mkRangeObj y z) = true) := by
  constructor
  · intro a b
    simp [Obj.overlaps]
  · intro x y z hxy hyz
    simp only [Obj.overlaps, mkRangeObj, Bool.and_eq_true, decide_eq_true_eq]
    exact ⟨le_trans hxy hyz, le_refl y⟩

/-- Witness for C6: the touching ranges `[0,5)` and `[5,9)` overlap. -/
theorem overlaps_iff_inclusive_comparison_witness :
    (mkRangeObj 0 5).overlaps (mkRangeObj 5 9) = true :=
  overlaps_iff_inclusive_comparison.2 0 5 9 (by decide) (by decide)

/-- C9: for a transcript to which no exon was ever added, a successful
`finalize` synthesizes exactly one exon spanning `[start, end)`, so the exon
count is exactly 1 afterwards. -/
theorem finalize_synthesizes_single_exon (t t' : TranscriptS)
    (hex : t.exons = []) (h : t.finalize false = Except.ok t') :
    t'.exons = [(t.start, t.end_)] ∧ t'.nume = 1 := by
  obtain ⟨heq, -⟩ := finalize_ok_eq t t' false h
  have hb : finalizeBounds t false = { t with exons := [(t.start, t.end_)] } := by
    unfold finalizeBounds
    rw [hex]
    rfl
  rw [heq, hb]
  exact ⟨rfl, rfl⟩

/-- Witness for C9: a transcript-line-only transcript gains one exon equal to
its span `[100, 200)`. -/
theorem finalize_synthesizes_single_exon_witness :
    c9res.exons = [(c9tx.start, c9tx.end_)] ∧ c9res.nume = 1 :=
  finalize_synthesizes_single_exon c9tx c9res rfl (by rfl)

/-- C8: `Transcript.add` returns the non-fatal rejection signal `False`
exactly when the record's strand, seqid or `transcript_id` attribute
mismatches the transcript's established identity; when all three match it
returns `True`. -/
theorem add_rejects_iff_identity_mismatch (t : TranscriptS) (o : Obj) :
    (t.add o).1 = false ↔
      (t.strand ≠ o.strand ∨ t.seqid ≠ o.seqid ∨
        some t.tid ≠ lookupAttr o.attrs "transcript_id") := by
  obtain ⟨ty, sq, st, src, s, e, at_, ex, cd, exp⟩ := o
  unfold TranscriptS.add
  by_cases h1 : t.strand ≠ st ∨ t.seqid ≠ sq
  · rw [if_pos h1]
    simp only [true_iff]
    tauto
  · rw [if_neg h1]
    by_cases h2 : some t.tid ≠ lookupAttr at_ "transcript_id"
    · rw [if_pos h2]
      simp only [true_iff]
      tauto
    · rw [if_neg h2]
      push_neg at h1 h2
      cases ty <;> simp [h1.1, h1.2, h2]

/-- C10: a rejected `Transcript.add` call leaves the transcript unchanged. -/
theorem add_rejection_is_atomic (t : TranscriptS) (o : Obj)
    (h : (t.add o).1 = false) : (t.add o).2 = t := by
  obtain ⟨ty, sq, st, src, s, e, at_, ex, cd, exp⟩ := o
  unfold TranscriptS.add at h ⊢
  by_cases h1 : t.strand ≠ st ∨ t.seqid ≠ sq
  · rw [if_pos h1]
  · rw [if_neg h1] at h ⊢
    by_cases h2 : some t.tid ≠ lookupAttr at_ "transcript_id"
    · rw [if_pos h2]
    · rw [if_neg h2] at h ⊢
      cases ty <;> simp at h

/-- Witness for C10: a seqid-mismatching exon record is rejected and the
transcript state is exactly what it was. -/
theorem add_rejection_is_atomic_witness :
    (mmTx.add mmObj).1 = false ∧ (mmTx.add mmObj).2 = mmTx :=
  ⟨by decide, add_rejection_is_atomic mmTx mmObj (by decide)⟩

/-- C3: on every non-empty input, `Transcriptome.bundle_it` aborts with an
`AttributeError` before emitting any bundle, because it invokes the
non-existent method `Bundle.add` on its accumulator. -/
theorem bundleIt_raises_attribute_error (txs : List Obj) (h : txs ≠ []) :
    bundleIt txs =
      Except.error "AttributeError: Bundle object has no attribute add" := by
  match txs with
  | [] => exact absurd rfl h
  | o :: rest => rfl

/-- Witness for C3: the sweep fails already on a single transcript. -/
theorem bundleIt_raises_attribute_error_witness :
    bundleIt [mkRangeObj 0 1] =
      Except.error "AttributeError: Bundle object has no attribute add" :=
  bundleIt_raises_attribute_error [mkRangeObj 0 1] (by simp)

/-- C7 counterexample: a transcript-kind record carrying a `transcript_id` but
no `gene_id` is not accepted — `Transcript.from_transcript` fails on its
`gene_id` assertion. -/
theorem fromTranscript_rejects_missing_gid :
    fromTranscript c7obj = Except.error "gene_id not found in attributes" := by
  rfl

/-- C7 amended: assembling a `Transcript` from a transcript-kind record
succeeds iff both `transcript_id` and `gene_id` are present after attribute
normalization; on failure the error names the missing attribute (it does not
name the entity). -/
theorem fromTranscript_requires_tid_and_gid (o : Obj)
    (hty : o.otype = OType.Transcript) :
    ((fromTranscript o).isOk = true ↔
      ((lookupAttr (renameAttrs o.attrs [("ID", "transcript_id"), ("Parent", "gene_id")])
          "transcript_id").isSome = true ∧
       (lookupAttr (renameAttrs o.attrs [("ID", "transcript_id"), ("Parent", "gene_id")])
          "gene_id").isSome = true)) ∧
    (∀ m, fromTranscript o = Except.error m →
      m = "transcript_id not found in attributes" ∨
      m = "gene_id not found in attributes") := by
  have hne : ¬ o.otype ≠ OType.Transcript := by simp [hty]
  constructor
  · unfold fromTranscript
    rw [if_neg hne]
    rcases h1 : lookupAttr (renameAttrs o.attrs [("ID", "transcript_id"), ("Parent", "gene_id")])
        "transcript_id" with _ | tid
    · simp [Except.isOk, Except.toBool]
    · rcases h2 : lookupAttr (renameAttrs o.attrs [("ID", "transcript_id"), ("Parent", "gene_id")])
          "gene_id" with _ | gid
      · simp [Except.isOk, Except.toBool]
      · simp [Except.isOk, Except.toBool]
  · intro m hm
    unfold fromTranscript at hm
    rw [if_neg hne] at hm
    rcases h1 : lookupAttr (renameAttrs o.attrs [("ID", "transcript_id"), ("Parent", "gene_id")])
        "transcript_id" with _ | tid <;> rw [h1] at hm
    · cases hm
      exact Or.inl rfl
    · rcases h2 : lookupAttr (renameAttrs o.attrs [("ID", "transcript_id"), ("Parent", "gene_id")])
          "gene_id" with _ | gid <;> rw [h2] at hm
      · cases hm
        exact Or.inr rfl
      · cases hm

/-- Witness for C7 amended: a record with both identifiers assembles. -/
theorem fromTranscript_requires_tid_and_gid_witness :
    (fromTranscript c4obj).isOk = true :=
  (fromTranscript_requires_tid_and_gid c4obj rfl).1.mpr ⟨by decide, by decide⟩

/-- C2 counterexample: `finalize` accepts a transcript whose middle CDS
interval `[12,15)` lies entirely in the intron between exons `[0,10)` and
`[20,30)` — neither 12 nor 14 nor 15 is covered by any exon — because only
`cds.begin()` and `cds.end()-1` are checked. -/
theorem finalize_accepts_uncovered_middle_cds :
    c2tx.finalize false = Except.ok c2tx ∧
    ((12 : Int), (15 : Int)) ∈ c2tx.cds ∧
    containsPoint c2tx.exons 12 = false ∧
    containsPoint c2tx.exons 14 = false ∧
    containsPoint c2tx.exons 15 = false := by
  refine ⟨by rfl, by decide, by decide, by decide, by decide⟩

/-- C2 amended: after a successful `finalize`, the smallest CDS start and the
largest CDS end minus one each lie within some exon interval (intermediate CDS
intervals are not checked); a failing `finalize` reports either the
`transcript_id` consistency assertion or the CDS structural error naming the
offending transcript id. -/
theorem finalize_checks_cds_extremes :
    (∀ (t t' : TranscriptS) (b : Bool), t.finalize b = Except.ok t' →
      t'.cds ≠ [] →
        (∃ e ∈ t'.exons, e.1 ≤ tbegin t'.cds ∧ tbegin t'.cds < e.2) ∧
        (∃ e ∈ t'.exons, e.1 ≤ tend t'.cds - 1 ∧ tend t'.cds - 1 < e.2)) ∧
    (∀ (t : TranscriptS) (b : Bool) (m : String), t.finalize b = Except.error m →
      m = "KeyError: transcript_id" ∨ m = "transcript_id missing - can not assign" ∨
      m = "invalid CDS detected in transcript when finalizing: " ++ t.tid) := by
  constructor
  · intro t t' b h hcds
    obtain ⟨heq, hchk⟩ := finalize_ok_eq t t' b h
    have hc : t'.cds = t.cds := by rw [heq, finalizeBounds_cds]
    rw [hc] at hcds ⊢
    obtain ⟨h1, h2⟩ := hchk hcds
    rw [← heq] at h1 h2
    exact ⟨(containsPoint_iff _ _).1 h1, (containsPoint_iff _ _).1 h2⟩
  · exact finalize_error_msgs

/-- Witness for C2 amended: on the concrete transcript `c2tx` the two checked
extreme points are indeed exon-covered. -/
theorem finalize_checks_cds_extremes_witness :
    (∃ e ∈ c2tx.exons, e.1 ≤ tbegin c2tx.cds ∧ tbegin c2tx.cds < e.2) ∧
    (∃ e ∈ c2tx.exons, e.1 ≤ tend c2tx.cds - 1 ∧ tend c2tx.cds - 1 < e.2) :=
  finalize_checks_cds_extremes.1 c2tx c2tx false (by rfl) (by decide)

theorem cumulativeStep_eq_zipWith (acc v : List ℚ) (h : acc.length = v.length) :
    cumulativeStep acc v = acc.zipWith (· + ·) v := by
  unfold cumulativeStep
  split
  · rename_i he
    rw [List.isEmpty_iff] at he
    subst he
    have hv : v = [] := List.length_eq_zero.mp (by simpa using h.symm)
    subst hv
    rfl
  · rfl

theorem foldl_cumulativeStep (n : Nat) :
    ∀ (vs : List (List ℚ)) (acc : List ℚ), acc.length = n →
      (∀ v ∈ vs, v.length = n) →
      vs.foldl cumulativeStep acc =
        (List.range n).map (fun i => acc.getD i 0 + (vs.map (fun v => v.getD i 0)).sum)
  | [], acc, hacc, _ => by
    rw [List.foldl_nil]
    refine List.ext_getElem (by simp [hacc]) ?_
    intro i hi1 hi2
    rw [List.getElem_map, List.getElem_range]
    rw [List.getD_eq_getElem acc 0 hi1]
    simp
  | v :: vs, acc, hacc, hall => by
    have hv : v.length = n := hall v (by simp)
    have hz : (acc.zipWith (· + ·) v).length = n := by
      rw [List.length_zipWith, hacc, hv]
      exact Nat.min_self n
    rw [List.foldl_cons, cumulativeStep_eq_zipWith acc v (by rw [hacc, hv]),
      foldl_cumulativeStep n vs (acc.zipWith (· + ·) v) hz
        (fun w hw => hall w (by simp [hw]))]
    refine List.map_congr_left ?_
    intro i hi
    rw [List.mem_range] at hi
    have hg : (acc.zipWith (· + ·) v).getD i 0 = acc.getD i 0 + v.getD i 0 := by
      rw [List.getD_eq_getElem _ 0 (by rw [hz]; exact hi),
        List.getD_eq_getElem acc 0 (by rw [hacc]; exact hi),
        List.getD_eq_getElem v 0 (by rw [hv]; exact hi),
        List.getElem_zipWith]
    rw [hg, List.map_cons, List.sum_cons]
    ring

/-- C5: for a cluster whose member expression vectors all have length `n`,
the aggregated vector written for the representative is the element-wise sum
of the member vectors. -/
theorem aggregated_expression_is_elementwise_sum (vs : List (List ℚ)) (n : Nat)
    (hne : vs ≠ []) (hlen : ∀ v ∈ vs, v.length = n) :
    cumulativeExpressions vs = specElementwiseSum n vs := by
  match vs, hne with
  | v :: rest, _ =>
    unfold cumulativeExpressions
    rw [List.foldl_cons]
    have h0 : cumulativeStep [] v = v := rfl
    rw [h0, foldl_cumulativeStep n rest v (hlen v (by simp))
      (fun w hw => hlen w (by simp [hw]))]
    unfold specElementwiseSum
    refine List.map_congr_left ?_
    intro i _
    rw [List.map_cons, List.sum_cons]

/-- Witness for C5: the spec's concrete scenario — member vectors `[1, 2]`
and `[3, 1/2]` aggregate to `[4, 5/2]` (that is, `[4.0, 2.5]`). -/
theorem aggregated_expression_is_elementwise_sum_witness :
    cumulativeExpressions [[(1 : ℚ), 2], [3, 1/2]] =
      specElementwiseSum 2 [[(1 : ℚ), 2], [3, 1/2]] ∧
    cumulativeExpressions [[(1 : ℚ), 2], [3, 1/2]] = [4, 5/2] :=
  ⟨aggregated_expression_is_elementwise_sum _ 2 (by simp)
      (by rintro v hv; simp only [List.mem_cons, List.mem_singleton] at hv
          rcases hv with rfl | rfl | h
          · rfl
          · rfl
          · simp at h),
   by norm_num [cumulativeExpressions, cumulativeStep]⟩

theorem groupByKey_mem_iff (key : TranscriptS → List (Int × Int))
    (txs : List TranscriptS) (c : List (Int × Int) × List TranscriptS) :
    c ∈ groupByKey key txs ↔
      ∃ k ∈ (txs.map key).dedup,
        c = (k, txs.filter (fun t => decide (key t = k))) := by
  simp only [groupByKey, List.mem_map]
  constructor
  · rintro ⟨k, hk, rfl⟩
    exact ⟨k, hk, rfl⟩
  · rintro ⟨k, hk, rfl⟩
    exact ⟨k, hk, rfl⟩

/-- C1: under the default CDS-equivalence key, two transcripts of a finalized
group land in the same cluster iff their sorted CDS interval lists are
element-wise equal; a transcript with an empty CDS list is never clustered
with one that has a non-empty CDS list. -/
theorem cds_clustering_partition (txs : List TranscriptS) (t u : TranscriptS)
    (ht : t ∈ txs) (hu : u ∈ txs) :
    ((∃ c ∈ groupByKey TranscriptS.getCds txs, t ∈ c.2 ∧ u ∈ c.2) ↔
      t.getCds = u.getCds) ∧
    (t.getCds = [] → u.getCds ≠ [] →
      ¬∃ c ∈ groupByKey TranscriptS.getCds txs, t ∈ c.2 ∧ u ∈ c.2) := by
  have main : (∃ c ∈ groupByKey TranscriptS.getCds txs, t ∈ c.2 ∧ u ∈ c.2) ↔
      t.getCds = u.getCds := by
    constructor
    · rintro ⟨c, hc, htc, huc⟩
      obtain ⟨k, hk, rfl⟩ := (groupByKey_mem_iff _ _ _).1 hc
      have h1 := (List.mem_filter.1 htc).2
      have h2 := (List.mem_filter.1 huc).2
      rw [decide_eq_true_eq] at h1 h2
      rw [h1, h2]
    · intro h
      refine ⟨(t.getCds, txs.filter (fun x => decide (x.getCds = t.getCds))), ?_, ?_, ?_⟩
      · exact (groupByKey_mem_iff _ _ _).2
          ⟨t.getCds, List.mem_dedup.2 (List.mem_map_of_mem _ ht), rfl⟩
      · exact List.mem_filter.2 ⟨ht, by simp⟩
      · exact List.mem_filter.2 ⟨hu, by simp [h]⟩
  exact ⟨main, fun h1 h2 hc => h2 (by rw [← main.1 hc, h1])⟩

/-- Witness for C1: transcripts `tA` and `tB` share the CDS chain
`[100, 200)` and land in one cluster; the CDS-less `tC` is not clustered
with `tA`. -/
theorem cds_clustering_partition_witness :
    (∃ c ∈ groupByKey TranscriptS.getCds [w1tx, w2tx, w3tx],
        w1tx ∈ c.2 ∧ w2tx ∈ c.2) ∧
    ¬(∃ c ∈ groupByKey TranscriptS.getCds [w1tx, w2tx, w3tx],
        w3tx ∈ c.2 ∧ w1tx ∈ c.2) :=
  ⟨(cds_clustering_partition [w1tx, w2tx, w3tx] w1tx w2tx (by simp)
      (by simp)).1.mpr (by decide),
   (cds_clustering_partition [w1tx, w2tx, w3tx] w3tx w1tx (by simp)
      (by simp)).2 (by decide) (by decide)⟩

theorem add_exons_of_transcript (t : TranscriptS) (o : Obj)
    (hty : o.otype = OType.Transcript) : ((t.add o).2).exons = t.exons := by
  unfold TranscriptS.add
  split
  · rfl
  · split
    · rfl
    · rw [hty]

theorem mkTranscript_exons (o : Obj) (nt : TranscriptS)
    (h : mkTranscript o = Except.ok nt) : nt.exons = [] := by
  unfold mkTranscript at h
  split at h
  · unfold fromTranscript at h
    split at h
    · exact absurd h (by simp)
    · split at h
      · exact absurd h (by simp)
      · split at h
        · exact absurd h (by simp)
        · cases h
          rfl
  · unfold fromExon at h
    split at h
    · exact absurd h (by simp)
    · cases h
      rfl
  · unfold fromExon at h
    split at h
    · exact absurd h (by simp)
    · cases h
      rfl

theorem modifyAt_mem (f : TranscriptS → TranscriptS) (x : TranscriptS) :
    ∀ (n : Nat) (l : List TranscriptS),
      x ∈ modifyAt f n l → x ∈ l ∨ ∃ y ∈ l, x = f y := by
  intro n l
  induction l generalizing n with
  | nil =>
    intro h
    simp [modifyAt] at h
  | cons t ts ih =>
    cases n with
    | zero =>
      intro h
      rw [show modifyAt f 0 (t :: ts) = f t :: ts from rfl] at h
      rcases List.mem_cons.1 h with h | h
      · exact Or.inr ⟨t, List.mem_cons_self t ts, h⟩
      · exact Or.inl (List.mem_cons_of_mem _ h)
    | succ n =>
      intro h
      rw [show modifyAt f (n + 1) (t :: ts) = t :: modifyAt f n ts from rfl] at h
      rcases List.mem_cons.1 h with h | h
      · exact Or.inl (h ▸ List.mem_cons_self t ts)
      · rcases ih n h with h2 | ⟨y, hy, hxy⟩
        · exact Or.inl (List.mem_cons_of_mem _ h2)
        · exact Or.inr ⟨y, List.mem_cons_of_mem _ hy, hxy⟩

theorem getD_mem_or (l : List TranscriptS) (n : Nat) (d : TranscriptS) :
    l.getD n d ∈ l ∨ l.getD n d = d := by
  rcases lt_or_ge n l.length with h | h
  · left
    rw [List.getD_eq_getElem l d h]
    exact List.getElem_mem h
  · right
    exact List.getD_eq_default l d h

theorem txgroupAddObject_exons (objects : List TranscriptS) (o : Obj)
    (idx : Nat) (objects2 : List TranscriptS)
    (hty : o.otype = OType.Transcript)
    (h : txgroupAddObject objects o = Except.ok (idx, objects2))
    (hall : ∀ t ∈ objects, t.exons = []) :
    ∀ t ∈ objects2, t.exons = [] := by
  unfold txgroupAddObject at h
  split at h
  · cases h
    intro t htm
    rcases modifyAt_mem _ t _ _ htm with hm | ⟨y, hy, rfl⟩
    · exact hall t hm
    · rw [add_exons_of_transcript y o hty]
      exact hall y hy
  · split at h
    · exact absurd h (by simp)
    · rename_i newT hnew
      cases h
      intro t htm
      rcases List.mem_append.1 htm with hm | hm
      · exact hall t hm
      · rw [List.mem_singleton] at hm
        subst hm
        rw [add_exons_of_transcript newT o hty]
        exact mkTranscript_exons o newT hnew

theorem bundleAddObject_step (b : BundleS) (o : Obj) (r : Bool) (b2 : BundleS)
    (hty : o.otype = OType.Transcript)
    (h : bundleAddObject b o = Except.ok (r, b2))
    (hall : ∀ t ∈ b.objects, t.exons = [])
    (hint : b.intervals = []) :
    (∀ t ∈ b2.objects, t.exons = []) ∧ b2.intervals = [] := by
  unfold bundleAddObject at h
  split at h
  · cases h
    exact ⟨hall, hint⟩
  · split at h
    · exact absurd h (by simp)
    · rename_i idx objects2 hp
      cases h
      have hmem : ∀ t ∈ objects2, t.exons = [] :=
        txgroupAddObject_exons b.objects o idx objects2 hty hp hall
      refine ⟨hmem, ?_⟩
      have hins : (objects2.getD idx defaultTx).exons = [] := by
        rcases getD_mem_or objects2 idx defaultTx with hm | he
        · exact hmem _ hm
        · rw [he]
          rfl
      show mergeOverlaps (b.intervals ++ sortPairs (objects2.getD idx defaultTx).exons) = []
      rw [hins, hint]
      rfl

theorem bundleAddObject_seqid (b : BundleS) (o : Obj) (r : Bool) (b2 : BundleS)
    (h : bundleAddObject b o = Except.ok (r, b2)) :
    b2.seqid = some (b.seqid.getD o.seqid) ∧
    b2.strand = some (b.strand.getD o.strand) := by
  unfold bundleAddObject at h
  split at h
  · cases h
    exact ⟨rfl, rfl⟩
  · split at h
    · exact absurd h (by simp)
    · cases h
      exact ⟨rfl, rfl⟩

theorem addAllBundle_seqid_stable :
    ∀ (objs : List Obj) (b0 b : BundleS) (s st : String),
      b0.seqid = some s → b0.strand = some st →
      addAllBundle b0 objs = Except.ok b →
      b.seqid = some s ∧ b.strand = some st := by
  intro objs
  induction objs with
  | nil =>
    intro b0 b s st h1 h2 h
    cases h
    exact ⟨h1, h2⟩
  | cons o rest ih =>
    intro b0 b s st h1 h2 h
    unfold addAllBundle at h
    split at h
    · exact absurd h (by simp)
    · rename_i r b2 heq
      obtain ⟨hs, hst⟩ := bundleAddObject_seqid b0 o r b2 heq
      rw [h1, Option.getD_some] at hs
      rw [h2, Option.getD_some] at hst
      exact ih b2 b s st hs hst h

theorem addAllBundle_intervals :
    ∀ (objs : List Obj) (b0 b : BundleS),
      (∀ o ∈ objs, o.otype = OType.Transcript) →
      (∀ t ∈ b0.objects, t.exons = []) → b0.intervals = [] →
      addAllBundle b0 objs = Except.ok b → b.intervals = [] := by
  intro objs
  induction objs with
  | nil =>
    intro b0 b _ _ hint h
    cases h
    exact hint
  | cons o rest ih =>
    intro b0 b hty hall hint h
    unfold addAllBundle at h
    split at h
    · exact absurd h (by simp)
    · rename_i r b2 heq
      obtain ⟨hall2, hint2⟩ :=
        bundleAddObject_step b0 o r b2 (hty o (by simp)) heq hall hint
      exact ih b2 b (fun x hx => hty x (by simp [hx])) hall2 hint2 h

/-- C4 amended: over any sequence of `Bundle.add_object` calls from the empty
bundle, the bundle's seqid and strand are fixed by the first member and a
later member with a different seqid or strand is rejected with the state
unchanged — but the merged-interval summary does not track the members' exon
intervals: members added as `Transcript`-kind objects contribute nothing
(their internal copies carry empty exon trees), so the summary stays empty. -/
theorem bundle_summary_and_identity :
    (∀ (objs : List Obj) (b : BundleS),
        (∀ o ∈ objs, o.otype = OType.Transcript) →
        addAllBundle emptyBundle objs = Except.ok b → b.intervals = []) ∧
    (∀ (o : Obj) (rest : List Obj) (b : BundleS),
        addAllBundle emptyBundle (o :: rest) = Except.ok b →
        b.seqid = some o.seqid ∧ b.strand = some o.strand) ∧
    (∀ (b : BundleS) (o : Obj) (s st : String),
        b.seqid = some s → b.strand = some st →
        s ≠ o.seqid ∨ st ≠ o.strand →
        bundleAddObject b o = Except.ok (false, b)) := by
  refine ⟨?_, ?_, ?_⟩
  · intro objs b hty h
    exact addAllBundle_intervals objs emptyBundle b hty
      (by intro t ht; simp [emptyBundle] at ht) rfl h
  · intro o rest b h
    unfold addAllBundle at h
    split at h
    · exact absurd h (by simp)
    · rename_i r b2 heq
      obtain ⟨hs, hst⟩ := bundleAddObject_seqid emptyBundle o r b2 heq
      exact addAllBundle_seqid_stable rest b2 b o.seqid o.strand
        (by simpa using hs) (by simpa using hst) h
  · intro b o s st h1 h2 h3
    unfold bundleAddObject
    rw [h1, h2, Option.getD_some, Option.getD_some]
    rw [if_pos (h3.imp (fun h => by simpa using h) (fun h => by simpa using h))]
    rw [← h1, ← h2]

/-- C4 counterexample: accepting the single-exon transcript entity `c4obj`
into an empty bundle leaves the merged-interval summary empty, not equal to
the coalesced union `[(0, 10)]` of the member's exon intervals. -/
theorem bundle_summary_misses_exons :
    bundleAddObject emptyBundle c4obj = Except.ok (true, c4bres) ∧
    mergeOverlaps c4obj.exons = [(0, 10)] ∧
    c4bres.intervals = [] ∧
    c4bres.intervals ≠ mergeOverlaps c4obj.exons := by
  refine ⟨by rfl, by rfl, by rfl, by decide⟩

/-- Witness for C4 amended: the concrete run on `c4obj`, and a rejected
seqid-mismatching add on a fixed-identity bundle. -/
theorem bundle_summary_and_identity_witness :
    c4bres.intervals = [] ∧
    c4bres.seqid = some "chr1" ∧ c4bres.strand = some "+" ∧
    bundleAddObject c4bset c4mismatch = Except.ok (false, c4bset) := by
  have h : addAllBundle emptyBundle [c4obj] = Except.ok c4bres := by rfl
  refine ⟨?_, ?_, ?_, ?_⟩
  · exact bundle_summary_and_identity.1 [c4obj] c4bres
      (by rintro o ho; simp only [List.mem_singleton] at ho; subst ho; rfl) h
  · exact (bundle_summary_and_identity.2.1 c4obj [] c4bres h).1
  · exact (bundle_summary_and_identity.2.1 c4obj [] c4bres h).2
  · exact bundle_summary_and_identity.2.2 c4bset c4mismatch "chr1" "+" rfl rfl
      (Or.inl (by decide))

end ORFclust
